import Mathlib

/-!
Verification of the LSP client layer of `src/agent/lsp.py`
(`JSONRPCClient` and its subclass `LSPClient`).

The development shallowly embeds the pieces of the Python code that the
specification talks about:

* the JSON values exchanged on the wire (`JValue`) and Python's
  `json.dumps` serialization with its default options
  (`ensure_ascii=True`, separators `", "` / `": "`)  — `jsonDumps`;
* the frame encoder `JSONRPCClient._send` — `encodeFrame`;
* the frame reader `JSONRPCClient._read_loop` — `readLoop`, driven by a
  byte stream modelled as a `List Char` of code points `< 256`
  (every stream appearing in the theorems below is pure ASCII, where a
  Python byte and a Lean `Char` coincide);
* the id allocator and the pending-request map of `JSONRPCClient` —
  `allocIds`, `resolveStep`, `pendingDel`;
* the facade request builders of `LSPClient`
  (`hover`, `definition`, `references`, `rename`, `did_open`) and the
  hover result extraction.

Machine integers do not occur: Python integers are unbounded, and are
embedded as `Int` (or `Nat` where the Python value is a length).
-/

/-- JSON values as produced by Python's `json` module for the messages this
client sends and receives.  Floats never occur in the client's messages and
are not modelled. -/
inductive JValue where
  | jnull : JValue
  | jbool : Bool → JValue
  | jnum : Int → JValue
  | jstr : String → JValue
  | jarr : List JValue → JValue
  | jobj : List (String × JValue) → JValue

/-- Decimal digits of a natural number, as Python's `repr`/`str` prints them
(no sign, no separators). -/
def natDec (n : Nat) : List Char :=
  if h : n < 10 then [Char.ofNat (48 + n)]
  else natDec (n / 10) ++ [Char.ofNat (48 + n % 10)]
  decreasing_by exact Nat.div_lt_self (by omega) (by omega)

/-- Python's rendering of an `int` (decimal, `-` sign for negatives), as
used both by `json.dumps` and by f-string interpolation. -/
def intDec (n : Int) : List Char :=
  if n < 0 then '-' :: natDec n.natAbs else natDec n.natAbs

/-- One hexadecimal digit, lowercase, as in `json.dumps`'s `\uXXXX` escapes. -/
def hexDigitChar : Nat → Char
  | 0 => '0' | 1 => '1' | 2 => '2' | 3 => '3' | 4 => '4' | 5 => '5' | 6 => '6'
  | 7 => '7' | 8 => '8' | 9 => '9' | 10 => 'a' | 11 => 'b' | 12 => 'c'
  | 13 => 'd' | 14 => 'e' | _ => 'f'

/-- Four-digit lowercase hex, the `XXXX` of a `\uXXXX` escape. -/
def hex4 (n : Nat) : List Char :=
  [hexDigitChar (n / 4096 % 16), hexDigitChar (n / 256 % 16),
   hexDigitChar (n / 16 % 16), hexDigitChar (n % 16)]

/-- `json.dumps`'s escaping of one character of a string, with the default
`ensure_ascii=True`: characters in the printable ASCII range `0x20`–`0x7e`
other than `"` and `\` pass through; everything else becomes a backslash
escape (`\uXXXX`, with a surrogate pair for astral characters). -/
def escapeChar (c : Char) : List Char :=
  if c = '"' then ['\\', '"']
  else if c = '\\' then ['\\', '\\']
  else if c = '\n' then ['\\', 'n']
  else if c = '\r' then ['\\', 'r']
  else if c = '\t' then ['\\', 't']
  else if c.toNat = 8 then ['\\', 'b']
  else if c.toNat = 12 then ['\\', 'f']
  else if c.toNat < 0x20 then '\\' :: 'u' :: hex4 c.toNat
  else if c.toNat ≤ 0x7e then [c]
  else if c.toNat < 0x10000 then '\\' :: 'u' :: hex4 c.toNat
  else '\\' :: 'u' :: hex4 (0xd800 + (c.toNat - 0x10000) / 0x400) ++
       '\\' :: 'u' :: hex4 (0xdc00 + (c.toNat - 0x10000) % 0x400)

/-- `json.dumps` of a Python `str`: quotes around the escaped characters. -/
def dumpStr (s : String) : List Char :=
  '"' :: (s.toList.flatMap escapeChar) ++ ['"']

mutual

/-- `json.dumps(data)` with its defaults, as called by
`JSONRPCClient._send`: `ensure_ascii=True` and item/key separators
`", "` and `": "`.  Produces the body characters of the frame. -/
def jsonDumps : JValue → List Char
  | .jnull => ['n', 'u', 'l', 'l']
  | .jbool true => ['t', 'r', 'u', 'e']
  | .jbool false => ['f', 'a', 'l', 's', 'e']
  | .jnum n => intDec n
  | .jstr s => dumpStr s
  | .jarr xs => '[' :: dumpsArr xs ++ [']']
  | .jobj kvs => '\x7b' :: dumpsObj kvs ++ ['\x7d']

/-- Serialization of the elements of a JSON array, joined by `", "`. -/
def dumpsArr : List JValue → List Char
  | [] => []
  | [x] => jsonDumps x
  | x :: y :: xs => jsonDumps x ++ ',' :: ' ' :: dumpsArr (y :: xs)

/-- Serialization of the key/value pairs of a JSON object, joined by `", "`,
each rendered as `key": "value`. -/
def dumpsObj : List (String × JValue) → List Char
  | [] => []
  | [(k, v)] => dumpStr k ++ ':' :: ' ' :: jsonDumps v
  | (k, v) :: p :: kvs =>
      dumpStr k ++ (':' :: ' ' :: (jsonDumps v ++ (',' :: ' ' :: dumpsObj (p :: kvs))))

end

/-- Byte length of the UTF-8 encoding of a character sequence: the length of
`content.encode('utf-8')` in `JSONRPCClient._send`. -/
def utf8ByteLen (cs : List Char) : Nat :=
  (cs.map Char.utf8Size).sum

/-- All characters of the sequence are ASCII (code point `≤ 0x7f`). -/
def asciiOnly (cs : List Char) : Prop :=
  ∀ c ∈ cs, c.toNat ≤ 0x7f

instance instDecidableAsciiOnly (cs : List Char) : Decidable (asciiOnly cs) := by
  unfold asciiOnly
  infer_instance

/-- `JSONRPCClient._send`'s frame encoding: the header
`f"Content-Length: {len(content)}\r\n\r\n"` (note: `len(content)` counts
*characters* of the Python string) followed by the serialized body. -/
def encodeFrame (msg : JValue) : List Char × List Char :=
  let content := jsonDumps msg
  ("Content-Length: ".toList ++ natDec content.length ++ ['\r', '\n', '\r', '\n'],
   content)

/-- The Content-Length value advertised in the header of the frame for
`msg`: the character count `len(content)` used by `_send`. -/
def advertisedLen (msg : JValue) : Nat :=
  (jsonDumps msg).length

theorem toNat_ofNat_small {n : Nat} (h : n < 128) : (Char.ofNat n).toNat = n := by
  have hv : Nat.isValidChar n := Or.inl (by omega)
  simp [Char.ofNat, hv, Char.toNat, Char.ofNatAux, UInt32.toNat, UInt32.ofNatCore]

theorem asciiOnly_nil : asciiOnly [] := by
  intro c hc
  cases hc

theorem asciiOnly_cons {c : Char} {cs : List Char} (h : c.toNat ≤ 0x7f)
    (hs : asciiOnly cs) : asciiOnly (c :: cs) := by
  intro d hd
  rcases List.mem_cons.mp hd with h1 | h2
  · exact h1 ▸ h
  · exact hs d h2

theorem asciiOnly_append {a b : List Char} (ha : asciiOnly a) (hb : asciiOnly b) :
    asciiOnly (a ++ b) := by
  intro d hd
  rcases List.mem_append.mp hd with h1 | h2
  · exact ha d h1
  · exact hb d h2

theorem natDec_ascii (n : Nat) : asciiOnly (natDec n) := by
  induction n using natDec.induct with
  | case1 n h =>
      rw [natDec, dif_pos h]
      exact asciiOnly_cons (by rw [toNat_ofNat_small (by omega)]; omega) asciiOnly_nil
  | case2 n h ih =>
      rw [natDec, dif_neg h]
      refine asciiOnly_append ih (asciiOnly_cons ?_ asciiOnly_nil)
      rw [toNat_ofNat_small (by omega)]
      omega

theorem intDec_ascii (n : Int) : asciiOnly (intDec n) := by
  unfold intDec
  split
  · exact asciiOnly_cons (by decide) (natDec_ascii _)
  · exact natDec_ascii _

theorem hexDigitChar_ascii (n : Nat) : (hexDigitChar n).toNat ≤ 0x7f := by
  unfold hexDigitChar
  split <;> decide

theorem hex4_ascii (n : Nat) : asciiOnly (hex4 n) := by
  unfold hex4
  exact asciiOnly_cons (hexDigitChar_ascii _) (asciiOnly_cons (hexDigitChar_ascii _)
    (asciiOnly_cons (hexDigitChar_ascii _)
      (asciiOnly_cons (hexDigitChar_ascii _) asciiOnly_nil)))

theorem escapeChar_ascii (c : Char) : asciiOnly (escapeChar c) := by
  unfold escapeChar
  split
  · decide
  split
  · decide
  split
  · decide
  split
  · decide
  split
  · decide
  split
  · decide
  split
  · decide
  split
  · exact asciiOnly_cons (by decide) (asciiOnly_cons (by decide) (hex4_ascii _))
  rename_i h1 h2 h3 h4 h5 h6 h7 h8
  split
  · rename_i h9
    exact asciiOnly_cons (by omega) asciiOnly_nil
  split
  · exact asciiOnly_cons (by decide) (asciiOnly_cons (by decide) (hex4_ascii _))
  · exact asciiOnly_append
      (asciiOnly_cons (by decide) (asciiOnly_cons (by decide) (hex4_ascii _)))
      (asciiOnly_cons (by decide) (asciiOnly_cons (by decide) (hex4_ascii _)))

theorem dumpStr_ascii (s : String) : asciiOnly (dumpStr s) := by
  unfold dumpStr
  refine asciiOnly_cons (by decide) (asciiOnly_append ?_ (by decide))
  intro c hc
  rcases List.mem_flatMap.mp hc with ⟨d, _, hcd⟩
  exact escapeChar_ascii d c hcd

mutual

theorem jsonDumps_ascii : (v : JValue) → asciiOnly (jsonDumps v)
  | .jnull => by rw [jsonDumps]; decide
  | .jbool true => by rw [jsonDumps]; decide
  | .jbool false => by rw [jsonDumps]; decide
  | .jnum n => by rw [jsonDumps]; exact intDec_ascii n
  | .jstr s => by rw [jsonDumps]; exact dumpStr_ascii s
  | .jarr xs => by
      rw [jsonDumps]
      exact asciiOnly_cons (by decide)
        (asciiOnly_append (dumpsArr_ascii xs) (by decide))
  | .jobj kvs => by
      rw [jsonDumps]
      exact asciiOnly_cons (by decide)
        (asciiOnly_append (dumpsObj_ascii kvs) (by decide))

theorem dumpsArr_ascii : (xs : List JValue) → asciiOnly (dumpsArr xs)
  | [] => by rw [dumpsArr]; exact asciiOnly_nil
  | [x] => by rw [dumpsArr]; exact jsonDumps_ascii x
  | x :: y :: xs => by
      rw [dumpsArr]
      exact asciiOnly_append (jsonDumps_ascii x)
        (asciiOnly_cons (by decide) (asciiOnly_cons (by decide)
          (dumpsArr_ascii (y :: xs))))

theorem dumpsObj_ascii : (kvs : List (String × JValue)) → asciiOnly (dumpsObj kvs)
  | [] => by rw [dumpsObj]; exact asciiOnly_nil
  | [(k, v)] => by
      rw [dumpsObj]
      exact asciiOnly_append (dumpStr_ascii k)
        (asciiOnly_cons (by decide) (asciiOnly_cons (by decide) (jsonDumps_ascii v)))
  | (k, v) :: p :: kvs => by
      rw [dumpsObj]
      exact asciiOnly_append (dumpStr_ascii k)
        (asciiOnly_cons (by decide) (asciiOnly_cons (by decide)
          (asciiOnly_append (jsonDumps_ascii v)
            (asciiOnly_cons (by decide) (asciiOnly_cons (by decide)
              (dumpsObj_ascii (p :: kvs)))))))

end

theorem ascii_utf8Size_one {c : Char} (h : c.toNat ≤ 0x7f) : c.utf8Size = 1 := by
  unfold Char.utf8Size
  rw [if_pos]
  exact UInt32.le_def.mpr (by simpa [Char.toNat] using h)

theorem utf8ByteLen_of_ascii {cs : List Char} (h : asciiOnly cs) :
    utf8ByteLen cs = cs.length := by
  induction cs with
  | nil => rfl
  | cons c cs ih =>
      have hc : c.utf8Size = 1 := ascii_utf8Size_one (h c (by simp))
      have hrest : asciiOnly cs := fun d hd => h d (by simp [hd])
      have step : utf8ByteLen (c :: cs) = c.utf8Size + utf8ByteLen cs := by
        simp [utf8ByteLen]
      rw [step, hc, ih hrest, List.length_cons, Nat.add_comm]

/-- C1. For every message sent (request or notification), the
Content-Length value `N` written by `_send` — computed in the source as
`len(content)`, the *character* count of the serialized body — equals the
exact byte length of the UTF-8-encoded body.  This holds because
`json.dumps`'s default `ensure_ascii=True` escapes every non-ASCII
character, so the body is pure ASCII and its character count coincides
with its byte count; in particular no body ever contains a multi-byte
character, which makes the multi-byte case of the claim hold vacuously
rather than by computing the length on the encoded bytes. -/
theorem contentLength_eq_utf8_byte_length (msg : JValue) :
    advertisedLen msg = utf8ByteLen (jsonDumps msg) ∧
    (encodeFrame msg).1 =
      "Content-Length: ".toList ++ natDec (utf8ByteLen (jsonDumps msg)) ++
        ['\r', '\n', '\r', '\n'] := by
  have h : utf8ByteLen (jsonDumps msg) = (jsonDumps msg).length :=
    utf8ByteLen_of_ascii (jsonDumps_ascii msg)
  exact ⟨h.symm, by rw [h]; rfl⟩

/-! ## Facade request builders (`LSPClient`) -/

/-- First-match association lookup in a JSON object's key/value list;
the objects built and inspected in this development have distinct keys,
so this agrees with Python dict indexing. -/
def jGet (v : JValue) (k : String) : Option JValue :=
  match v with
  | .jobj kvs => (kvs.find? (fun p => p.1 = k)).map Prod.snd
  | _ => none

/-- Python's `k in v` for the dict values inspected by `hover`
(for non-dict values the code under test never reaches the test, so
they are mapped to `false`). -/
def jHasKey (v : JValue) (k : String) : Bool :=
  match v with
  | .jobj kvs => kvs.any (fun p => p.1 = k)
  | _ => false

/-- Params built by `LSPClient.hover` (lsp.py lines 172–177):
`{"textDocument": {"uri": uri}, "position": {"line": line - 1, "character": character}}`. -/
def hoverParams (path : String) (line character : Int) : JValue :=
  .jobj [("textDocument", .jobj [("uri", .jstr ("file://" ++ path))]),
         ("position", .jobj [("line", .jnum (line - 1)),
                             ("character", .jnum character)])]

/-- Params built by `LSPClient.definition`. -/
def definitionParams (path : String) (line character : Int) : JValue :=
  .jobj [("textDocument", .jobj [("uri", .jstr ("file://" ++ path))]),
         ("position", .jobj [("line", .jnum (line - 1)),
                             ("character", .jnum character)])]

/-- Params built by `LSPClient.references` (adds the `context` member). -/
def referencesParams (path : String) (line character : Int) : JValue :=
  .jobj [("textDocument", .jobj [("uri", .jstr ("file://" ++ path))]),
         ("position", .jobj [("line", .jnum (line - 1)),
                             ("character", .jnum character)]),
         ("context", .jobj [("includeDeclaration", .jbool true)])]

/-- Params built by `LSPClient.rename` (adds the `newName` member). -/
def renameParams (path : String) (line character : Int) (newName : String) : JValue :=
  .jobj [("textDocument", .jobj [("uri", .jstr ("file://" ++ path))]),
         ("position", .jobj [("line", .jnum (line - 1)),
                             ("character", .jnum character)]),
         ("newName", .jstr newName)]

/-- Params built by `LSPClient.did_open` (lsp.py lines 151–161): the
`version` member is the literal `1` in the source; no state of the client
enters the construction. -/
def didOpenParams (path content languageId : String) : JValue :=
  .jobj [("textDocument",
          .jobj [("uri", .jstr ("file://" ++ path)),
                 ("languageId", .jstr languageId),
                 ("version", .jnum 1),
                 ("text", .jstr content)])]

/-- The `{line, character}` pair of the `position` member of an outgoing
request's params, when present and integer-valued. -/
def positionOf (v : JValue) : Option (Int × Int) :=
  match jGet v "position" with
  | some p =>
      match jGet p "line", jGet p "character" with
      | some (.jnum l), some (.jnum c) => some (l, c)
      | _, _ => none
  | none => none

/-- The `version` member of the `textDocument` member of a notification's
params, when present and integer-valued. -/
def versionOf (v : JValue) : Option Int :=
  match jGet v "textDocument" with
  | some td =>
      match jGet td "version" with
      | some (.jnum n) => some n
      | _ => none
  | none => none

/-- C6. Every facade query operation (`hover`, `definition`, `references`,
`rename`) converts the caller's coordinates to the wire position
`{line: line - 1, character: character}` — the line becomes 0-based, the
character is passed through — which is exactly the conversion the claim
instantiates as `hover(path, 3, 5)` emitting `{line: 2, character: 5}`. -/
theorem facade_position_conversion (path newName : String) (line character : Int) :
    positionOf (hoverParams path line character) = some (line - 1, character) ∧
    positionOf (definitionParams path line character) = some (line - 1, character) ∧
    positionOf (referencesParams path line character) = some (line - 1, character) ∧
    positionOf (renameParams path line character newName) = some (line - 1, character) ∧
    positionOf (hoverParams path 3 5) = some (2, 5) := by
  refine ⟨rfl, rfl, rfl, rfl, rfl⟩

/-- C10. Every `textDocument/didOpen` notification built by `did_open`
carries `version` equal to `1`: the version is the literal `1` in the
source, and the params are a pure function of the call's arguments alone —
no per-document counter exists — so any sequence of `did_open` calls
(repeats of the same path included) emits only version-1 notifications. -/
theorem didOpen_version_always_one (path content languageId : String)
    (calls : List (String × String × String)) :
    versionOf (didOpenParams path content languageId) = some 1 ∧
    (calls.map (fun c => didOpenParams c.1 c.2.1 c.2.2)).Forall
      (fun n => versionOf n = some 1) := by
  refine ⟨rfl, ?_⟩
  induction calls with
  | nil => trivial
  | cons c cs ih =>
      rw [List.map_cons, List.forall_cons]
      exact ⟨rfl, ih⟩

/-! ## Hover result extraction (`LSPClient.hover`, lsp.py lines 178–186) -/

/-- Python truthiness (`if result and ...`) of the JSON values the hover
code inspects: `None`, `False`, `0`, `""`, `[]` and `{}` are falsy. -/
def jTruthy : JValue → Bool
  | .jnull => false
  | .jbool b => b
  | .jnum n => n != 0
  | .jstr s => s != ""
  | .jarr xs => !xs.isEmpty
  | .jobj kvs => !kvs.isEmpty

mutual

/-- Python `repr` of the JSON-shaped values this client handles, used by
`str(contents)` on container values.  Strings are rendered with single
quotes; Python's switch to double quotes when the string itself contains a
single quote is not modelled (no theorem evaluates this branch on such a
string). -/
def pyReprJ : JValue → String
  | .jnull => "None"
  | .jbool true => "True"
  | .jbool false => "False"
  | .jnum n => String.mk (intDec n)
  | .jstr s => "'" ++ s ++ "'"
  | .jarr xs => "[" ++ pyReprArr xs ++ "]"
  | .jobj kvs => "\x7b" ++ pyReprObj kvs ++ "\x7d"

/-- `repr` of a Python list's elements, joined by `", "`. -/
def pyReprArr : List JValue → String
  | [] => ""
  | [x] => pyReprJ x
  | x :: y :: xs => pyReprJ x ++ ", " ++ pyReprArr (y :: xs)

/-- `repr` of a Python dict's items, joined by `", "`. -/
def pyReprObj : List (String × JValue) → String
  | [] => ""
  | [(k, v)] => "'" ++ k ++ "': " ++ pyReprJ v
  | (k, v) :: p :: kvs => "'" ++ k ++ "': " ++ pyReprJ v ++ ", " ++ pyReprObj (p :: kvs)

end

/-- Python `str()` of a JSON-shaped value: a string is itself, everything
else uses `repr` rendering. -/
def pyStrOfJ : JValue → String
  | .jstr s => s
  | v => pyReprJ v

/-- One element of the `contents` list, as flattened by
`[c if isinstance(c, str) else c.get("value", "") for c in contents]`:
a string is kept, a dict contributes its `"value"` member (default `""`).
A non-string `value` or a non-dict non-string element would make the
Python `join`/`get` raise; those shapes are mapped to `""` and are not
evaluated by any theorem below. -/
def hoverElemToStr : JValue → String
  | .jstr s => s
  | .jobj kvs =>
      match ((kvs.find? (fun p => p.1 = "value")).map Prod.snd) with
      | some (.jstr s) => s
      | some _ => ""
      | none => ""
  | _ => ""

/-- The result handling of `LSPClient.hover` (lsp.py lines 178–186).
`none` models Python `None` (the request produced no result); string
returns of the Python code are embedded as `.jstr`, and the
`return contents["value"]` branch returns that member unchanged. -/
def hoverExtract (result : Option JValue) : JValue :=
  match result with
  | some r =>
      if jTruthy r && jHasKey r "contents" then
        match jGet r "contents" with
        | some contents =>
            match contents with
            | .jobj _ =>
                if jHasKey contents "value" then (jGet contents "value").getD .jnull
                else .jstr (pyStrOfJ contents)
            | .jarr cs => .jstr (String.intercalate "\n" (cs.map hoverElemToStr))
            | _ => .jstr (pyStrOfJ contents)
        | none => .jstr "No hover info."
      else .jstr "No hover info."
  | none => .jstr "No hover info."

/-- Builds one element of a heterogeneous `contents` list: either a bare
string or a `{"value": s}` structure carrying it. -/
def mkHoverElem (bare : Bool) (s : String) : JValue :=
  if bare then .jstr s else .jobj [("value", .jstr s)]

theorem hoverElemToStr_mkHoverElem (b : Bool) (s : String) :
    hoverElemToStr (mkHoverElem b s) = s := by
  cases b <;> rfl

theorem map_hoverElemToStr_zipWith (bs : List Bool) (ss : List String)
    (h : bs.length = ss.length) :
    (List.zipWith mkHoverElem bs ss).map hoverElemToStr = ss := by
  induction bs generalizing ss with
  | nil =>
      cases ss with
      | nil => rfl
      | cons s ss => cases h
  | cons b bs ih =>
      cases ss with
      | nil => cases h
      | cons s ss =>
          simp only [List.zipWith_cons_cons, List.map_cons,
            hoverElemToStr_mkHoverElem]
          rw [ih ss (by simpa using h)]

/-- C7. `hover`'s reply handling: a result `{contents: {value: s}}`
returns `s`; a `contents` list of bare strings and `{value: s}` structures
returns their string values joined with newlines; `None` results and
results without a `contents` member return the fixed sentinel string
`"No hover info."` (the spec's "no data" sentinel). -/
theorem hover_result_extraction (s : String) (bs : List Bool) (ss : List String)
    (r : JValue) (hlen : bs.length = ss.length)
    (hnc : jHasKey r "contents" = false) :
    hoverExtract (some (.jobj [("contents", .jobj [("value", .jstr s)])])) =
      .jstr s ∧
    hoverExtract (some (.jobj
        [("contents", .jarr (List.zipWith mkHoverElem bs ss))])) =
      .jstr (String.intercalate "\n" ss) ∧
    hoverExtract none = .jstr "No hover info." ∧
    hoverExtract (some r) = .jstr "No hover info." := by
  refine ⟨rfl, ?_, rfl, ?_⟩
  · have h2 : hoverExtract (some (.jobj
        [("contents", .jarr (List.zipWith mkHoverElem bs ss))])) =
        .jstr (String.intercalate "\n"
          ((List.zipWith mkHoverElem bs ss).map hoverElemToStr)) := rfl
    rw [h2, map_hoverElemToStr_zipWith bs ss hlen]
  · simp [hoverExtract, hnc]

/-- Witness for C7 at concrete inputs: a single `{value: "foo: int"}`
structure, the mixed list `["a", {value: "b"}]`, and a result lacking
`contents`. -/
theorem hover_result_extraction_witness :
    hoverExtract (some (.jobj [("contents", .jobj [("value", .jstr "foo: int")])])) =
      .jstr "foo: int" ∧
    hoverExtract (some (.jobj
        [("contents", .jarr (List.zipWith mkHoverElem [true, false] ["a", "b"]))])) =
      .jstr (String.intercalate "\n" ["a", "b"]) ∧
    hoverExtract none = .jstr "No hover info." ∧
    hoverExtract (some (.jobj [("unrelated", .jnum 1)])) = .jstr "No hover info." :=
  hover_result_extraction "foo: int" [true, false] ["a", "b"]
    (.jobj [("unrelated", .jnum 1)]) rfl rfl

/-! ## Request ids and the pending map (`JSONRPCClient.send_request`) -/

/-- The id-allocation critical section of `send_request` (lsp.py lines
38–40), executed under `self.lock`: hand out the current counter and
increment it. -/
def allocStep (counter : Nat) : Nat × Nat :=
  (counter, counter + 1)

/-- The ids produced by `n` successive executions of the allocation
critical section starting from counter value `start` (`request_id` is `0`
when the client is constructed and is only ever touched inside the lock,
so any interleaving of concurrent `send_request` calls performs the `n`
steps in some sequential order — this is that order). -/
def allocIds : Nat → Nat → List Nat
  | 0, _ => []
  | n + 1, start =>
      let (reqId, next) := allocStep start
      reqId :: allocIds n next

theorem allocIds_eq_range (n start : Nat) :
    allocIds n start = List.range' start n := by
  induction n generalizing start with
  | zero => rfl
  | succ n ih => simp [allocIds, allocStep, List.range', ih]

/-- C4. The `n` request ids allocated over the lifetime of a connection
are pairwise distinct, strictly increasing in issuance order, and one per
call — so no id is ever reused. -/
theorem request_ids_unique_increasing (n start : Nat) :
    (allocIds n start).Sorted (· < ·) ∧ (allocIds n start).Nodup ∧
    (allocIds n start).length = n := by
  rw [allocIds_eq_range]
  have hs : (List.range' start n).Sorted (· < ·) := by
    rw [List.Sorted]
    exact List.pairwise_lt_range' ..
  exact ⟨hs, hs.nodup, List.length_range' ..⟩

/-- The message of the `TimeoutError` raised by `send_request` on timeout
(lsp.py line 60): `f"LSP request {method} timed out"`.  The request id is
a parameter of the model because the claim says the error carries it, but
the source interpolates only the method — the id does not occur in the
message, so the second argument is unused exactly as in the source. -/
def timeoutErrorMsg (method : String) (_reqId : Int) : String :=
  "LSP request " ++ method ++ " timed out"

/-- `del self.pending_requests[req_id]` (lsp.py line 59), on the key list
of the map: dict keys are unique, so removal is filtering the key out. -/
def pendingDel (pending : List Int) (reqId : Int) : List Int :=
  pending.filter (fun j => j != reqId)

/-- C3 counterexample. The error raised on timeout does not carry the
request id: two requests for the same method with different ids produce
byte-for-byte identical error messages, so the id cannot be recovered
from the error.  (The source raises
`TimeoutError(f"LSP request {method} timed out")`, interpolating only the
method.) -/
theorem timeout_error_lacks_id :
    timeoutErrorMsg "textDocument/hover" 3 = timeoutErrorMsg "textDocument/hover" 4 ∧
    (3 : Int) ≠ 4 :=
  ⟨rfl, by decide⟩

/-- C3 amended. On timeout the PendingRequest is removed from the pending
mapping — the timed-out id is gone, every other outstanding id is
untouched — and the call fails with a timeout error that carries the
method (the message determines the method uniquely) but not the request
id. -/
theorem timeout_cleanup_and_error (pending : List Int) (reqId : Int)
    (method : String) :
    reqId ∉ pendingDel pending reqId ∧
    (∀ j ∈ pending, j ≠ reqId → j ∈ pendingDel pending reqId) ∧
    (∀ j ∈ pendingDel pending reqId, j ∈ pending) ∧
    timeoutErrorMsg method reqId = "LSP request " ++ method ++ " timed out" ∧
    (∀ m₁ m₂ i₁ i₂ : _, timeoutErrorMsg m₁ i₁ = timeoutErrorMsg m₂ i₂ → m₁ = m₂) := by
  refine ⟨?_, ?_, ?_, rfl, ?_⟩
  · intro hmem
    have := (List.mem_filter.mp hmem).2
    simp at this
  · intro j hj hne
    exact List.mem_filter.mpr ⟨hj, by simpa using hne⟩
  · intro j hj
    exact (List.mem_filter.mp hj).1
  · intro m₁ m₂ i₁ i₂ h
    unfold timeoutErrorMsg at h
    have h2 : ("LSP request " ++ m₁ ++ " timed out").toList =
        ("LSP request " ++ m₂ ++ " timed out").toList := by rw [h]
    simp [String.toList] at h2
    cases m₁
    cases m₂
    simp at h2
    rw [h2]

/-- Witness for C3 (amended) at a concrete pending map `[3, 7, 9]`, timing
out request id 7 for method `textDocument/hover`. -/
theorem timeout_cleanup_and_error_witness :
    (7 : Int) ∉ pendingDel [3, 7, 9] 7 ∧
    (3 : Int) ∈ pendingDel [3, 7, 9] 7 ∧
    (9 : Int) ∈ pendingDel [3, 7, 9] 7 ∧
    timeoutErrorMsg "textDocument/hover" 7 =
      "LSP request " ++ "textDocument/hover" ++ " timed out" := by
  obtain ⟨h1, h2, _, h4, _⟩ := timeout_cleanup_and_error [3, 7, 9] 7 "textDocument/hover"
  exact ⟨h1, h2 3 (by decide) (by decide), h2 9 (by decide) (by decide), h4⟩

/-! ## The transport write path (`JSONRPCClient._send`) -/

/-- The transport as `_send` sees it: `self.process` is `None` (not
started, or after `stop()`), or a live child whose stdin has accepted the
listed writes, or a child that has exited so that writing raises
`BrokenPipeError`. -/
inductive Transport where
  | noProc : Transport
  | alive : List (List Char) → Transport
  | broken : Transport
  deriving DecidableEq

/-- One `self.process.stdin.write(...)`: appends the bytes on a live pipe,
raises `BrokenPipeError` (`Except.error ()`) when the child has exited. -/
def pipeWrite : Transport → List Char → Except Unit Transport
  | .noProc, _ => .ok .noProc
  | .alive ws, b => .ok (.alive (ws ++ [b]))
  | .broken, _ => .error ()

/-- `JSONRPCClient._send` (lsp.py lines 75–84): serialize and frame the
message, then — only if `self.process and self.process.stdin` — write the
header and the body inside `try: ... except BrokenPipeError: pass`.  The
result is the transport afterwards; no exception escapes. -/
def sendFrame (t : Transport) (msg : JValue) : Transport :=
  let (header, content) := encodeFrame msg
  match t with
  | .noProc => .noProc
  | _ =>
      match (do
          let t1 ← pipeWrite t header
          pipeWrite t1 content : Except Unit Transport) with
      | .ok t2 => t2
      | .error () => t

/-- What the reader thread did to this request's `(future, result_container)`
pair before the 10-second deadline of `future.wait`. -/
inductive WaitOutcome where
  | noReply : WaitOutcome
  | errReply : JValue → WaitOutcome
  | okReply : Option JValue → WaitOutcome

/-- The failures `send_request` can raise. -/
inductive PyErr where
  | timeoutRaise : String → PyErr
  | lspRaise : JValue → PyErr
  | brokenPipeRaise : PyErr

/-- The tail of `send_request` (lsp.py lines 56–65): timeout → clean up and
raise `TimeoutError`; error reply → raise; otherwise return
`result_container.get("result")` (`None` when absent, embedded `.jnull`). -/
def waitResult (method : String) (reqId : Int) (w : WaitOutcome) :
    Except PyErr JValue :=
  match w with
  | .noReply => .error (.timeoutRaise (timeoutErrorMsg method reqId))
  | .errReply e => .error (.lspRaise e)
  | .okReply r => .ok (r.getD .jnull)

/-- `send_request`'s write followed by its wait, as a function of the
transport and of what (if anything) the reader delivered in time. -/
def sendRequestRun (t : Transport) (method : String) (reqId : Int)
    (msg : JValue) (w : WaitOutcome) : Transport × Except PyErr JValue :=
  (sendFrame t msg, waitResult method reqId w)

/-- C9. A write attempted after the child exited is silently dropped:
the underlying pipe write does raise `BrokenPipeError`, but `_send`
swallows it, leaves the transport as it was, and returns normally —
`send_request` and `send_notification` never fail at the write.  A caller
on a dead transport, to whom no reply can ever be delivered, observes the
failure as the eventual `TimeoutError` of its wait, not as a broken-pipe
error. -/
theorem broken_pipe_swallowed (msg : JValue) (method : String) (reqId : Int)
    (ws : List (List Char)) :
    pipeWrite .broken (encodeFrame msg).1 = .error () ∧
    sendFrame .broken msg = .broken ∧
    sendFrame (.alive ws) msg =
      .alive (ws ++ [(encodeFrame msg).1] ++ [(encodeFrame msg).2]) ∧
    sendRequestRun .broken method reqId msg .noReply =
      (.broken, .error (.timeoutRaise (timeoutErrorMsg method reqId))) := by
  refine ⟨rfl, ?_, rfl, ?_⟩
  · cases msg <;> rfl
  · unfold sendRequestRun waitResult
    rw [show sendFrame .broken msg = .broken from by cases msg <;> rfl]

/-! ## The reader loop (`JSONRPCClient._read_loop`, lsp.py lines 86–123)

The child's stdout is a byte stream; it is modelled as a `List Char` whose
code points are the byte values.  All streams in the theorems below are
pure ASCII, where this coincides with `line.decode('utf-8')` on the Python
side.  `json.loads` belongs to the standard library, not to this
repository, so the loop takes the body decoder as a parameter `decode`
(`none` models a raised `json.JSONDecodeError`); concrete runs instantiate
it with a finite table built from `jsonDumps` itself. -/

/-- `readline()` on the stream: up to and including the first `\n`, the
whole rest at end of input; `([], _)` is the empty `b""` read at EOF. -/
def readLine : List Char → List Char × List Char
  | [] => ([], [])
  | c :: cs =>
      if c = '\n' then ([c], cs)
      else
        let (l, r) := readLine cs
        (c :: l, r)

/-- `read(n)` on the stream: the next `n` bytes (fewer at end of input);
Python's `read` with a negative count reads to the end. -/
def readCount (n : Int) (s : List Char) : List Char × List Char :=
  if n < 0 then (s, []) else (s.take n.toNat, s.drop n.toNat)

/-- The whitespace stripped by Python's `str.strip()` and `int()` (the
ASCII portion; no stream below contains other Unicode whitespace). -/
def isPyWs (c : Char) : Bool :=
  c = ' ' || c = '\t' || c = '\n' || c = '\r' || c = '\x0b' || c = '\x0c'

/-- Python `str.strip()`: drop leading and trailing whitespace. -/
def pyStrip (s : List Char) : List Char :=
  ((s.dropWhile isPyWs).reverse.dropWhile isPyWs).reverse

/-- Value of a non-empty all-ASCII-digit literal; `none` otherwise.
Python's underscore digit grouping and non-ASCII digits are not modelled —
no stream below contains them, and on the streams below both sides agree. -/
def digitsVal (ds : List Char) : Option Nat :=
  if ds ≠ [] ∧ ds.all Char.isDigit then
    some (ds.foldl (fun a c => a * 10 + (c.toNat - 48)) 0)
  else none

/-- Python `int(text)` for a decimal literal: strip whitespace, optional
sign, digits; `none` models the raised `ValueError`. -/
def pyInt (s : List Char) : Option Int :=
  match pyStrip s with
  | '-' :: ds => (digitsVal ds).map (fun n => -(n : Int))
  | '+' :: ds => (digitsVal ds).map (fun n => (n : Int))
  | ds => (digitsVal ds).map (fun n => (n : Int))

/-- Python `text.split(sep)` for a one-character separator. -/
def splitChar (sep : Char) : List Char → List (List Char)
  | [] => [[]]
  | c :: cs =>
      if c = sep then [] :: splitChar sep cs
      else
        match splitChar sep cs with
        | [] => [[c]]
        | p :: ps => (c :: p) :: ps

/-- What the loop stores into a waiter's `result_container` before setting
its event: the reply's `error` member, or its `result` member
(`message.get("result")`, `None` embedded as `.jnull` when absent). -/
inductive ROutcome where
  | rerr : JValue → ROutcome
  | rok : JValue → ROutcome

/-- The response-dispatch block of `_read_loop` (lsp.py lines 110–119):
if the decoded message carries a non-`None` `id` that is a key of
`pending_requests`, store the outcome, set the waiter's event, and delete
the entry; in every other case do nothing.  The map is embedded as its
key list (the `(future, result_container)` values are reflected in the
returned release event); a non-integer `id` can never equal one of the
integer keys. -/
def resolveStep (pending : List Int) (msg : JValue) : List Int × Option (Int × ROutcome) :=
  match jGet msg "id" with
  | some (.jnum i) =>
      if i ∈ pending then
        (pending.filter (fun j => j != i),
         some (i, if jHasKey msg "error" then .rerr ((jGet msg "error").getD .jnull)
                  else .rok ((jGet msg "result").getD .jnull)))
      else (pending, none)
  | _ => (pending, none)

/-- Why a modelled run of `_read_loop` stopped. -/
inductive LoopExit where
  | eofExit : LoopExit
  | errExit : LoopExit
  | fuelOut : LoopExit

/-- Observable behaviour of a run of `_read_loop`: the raw byte payloads
handed to `json.loads`, the waiters released (in order, with their
outcomes), the keys of `pending_requests` when the loop stops, and why it
stopped. -/
structure LoopRun where
  bodies : List (List Char)
  delivered : List (Int × ROutcome)
  pendingAfter : List Int
  exit : LoopExit

/-- `JSONRPCClient._read_loop`, one frame per iteration, bounded by fuel
(the claims below only need finitely many iterations; `fuelOut` marks the
bound).  `running` and `process` stay truthy — no `stop()` during the run.
Per iteration: `readline()`; empty read → break; a line not starting with
`Content-Length:` after strip → `continue`; otherwise
`int(line.split(":")[1].strip())` (failure → the catch-all `except` logs
and *breaks*); one more `readline()` ("Skip empty line"); `read(length)`;
empty body → break; `json.loads` (failure → the `except` breaks); then the
response dispatch, and on to the next frame. -/
def readLoop (decode : List Char → Option JValue) :
    Nat → List Char → List Int → LoopRun
  | 0, _, pending => ⟨[], [], pending, .fuelOut⟩
  | fuel + 1, stream, pending =>
      let (line, rest) := readLine stream
      if line.isEmpty then ⟨[], [], pending, .eofExit⟩
      else if "Content-Length:".toList.isPrefixOf (pyStrip line) then
        match (splitChar ':' (pyStrip line)).get? 1 with
        | none => ⟨[], [], pending, .errExit⟩
        | some piece =>
            match pyInt piece with
            | none => ⟨[], [], pending, .errExit⟩
            | some len =>
                let (_, rest2) := readLine rest
                let (body, rest3) := readCount len rest2
                if body.isEmpty then ⟨[], [], pending, .eofExit⟩
                else
                  match decode body with
                  | none => ⟨[body], [], pending, .errExit⟩
                  | some msg =>
                      let (pending2, ev) := resolveStep pending msg
                      let r := readLoop decode fuel rest3 pending2
                      ⟨body :: r.bodies, ev.toList ++ r.delivered,
                       r.pendingAfter, r.exit⟩
      else readLoop decode fuel rest pending

/-- A decoder given by a finite table, modelling `json.loads` on exactly
the bodies a concrete stream contains (every table below pairs
`jsonDumps m` with `m`); any other input models a raised decode error. -/
def decodeFor (table : List (List Char × JValue)) (b : List Char) : Option JValue :=
  (table.find? (fun p => p.1 = b)).map Prod.snd

/-- A server reply carrying an id (99) that was never issued or has
already timed out. -/
def respUnknownId : JValue :=
  .jobj [("jsonrpc", .jstr "2.0"), ("id", .jnum 99), ("result", .jnull)]

/-- A server reply for the outstanding request id 7. -/
def respKnownId : JValue :=
  .jobj [("jsonrpc", .jstr "2.0"), ("id", .jnum 7), ("result", .jstr "ok")]

/-- The JSON text of `respUnknownId`, as `json.dumps` produces it. -/
def bodyUnknown : List Char :=
  "\x7b\"jsonrpc\": \"2.0\", \"id\": 99, \"result\": null\x7d".toList

/-- The JSON text of `respKnownId`, as `json.dumps` produces it. -/
def bodyKnown : List Char :=
  "\x7b\"jsonrpc\": \"2.0\", \"id\": 7, \"result\": \"ok\"\x7d".toList

/-- The JSON text of the empty object. -/
def bodyEmptyObj : List Char := "\x7b\x7d".toList

theorem bodyUnknown_eq_dumps : jsonDumps respUnknownId = bodyUnknown := by
  simp [respUnknownId, bodyUnknown, jsonDumps, dumpsObj, dumpStr, intDec, natDec,
    escapeChar]

theorem bodyKnown_eq_dumps : jsonDumps respKnownId = bodyKnown := by
  simp [respKnownId, bodyKnown, jsonDumps, dumpsObj, dumpStr, intDec, natDec,
    escapeChar]

theorem bodyEmptyObj_eq_dumps : jsonDumps (.jobj []) = bodyEmptyObj := by
  simp [bodyEmptyObj, jsonDumps, dumpsObj]

/-- `json.loads` restricted to the three bodies above (each entry pairs a
`jsonDumps` image with its value, see the `_eq_dumps` lemmas). -/
def respTable : List (List Char × JValue) :=
  [(bodyUnknown, respUnknownId), (bodyKnown, respKnownId), (bodyEmptyObj, .jobj [])]

/-- A single well-formed frame for `respKnownId` (43 body bytes). -/
def streamGoodFrame : List Char :=
  "Content-Length: 43\r\n\r\n".toList ++ bodyKnown

theorem readLine_line_append (l rest : List Char) (hl : ∀ c ∈ l, c ≠ '\n') :
    readLine (l ++ '\n' :: rest) = (l ++ ['\n'], rest) := by
  induction l with
  | nil => simp [readLine]
  | cons c cs ih =>
      have hc : c ≠ '\n' := hl c (by simp)
      have ih2 := ih (fun d hd => hl d (by simp [hd]))
      simp [readLine, hc, ih2]

theorem malformed_length_halts (decode : List Char → Option JValue)
    (rest : List Char) (pending : List Int) (fuel : Nat) :
    readLoop decode (fuel + 1) ("Content-Length: abc\r\n".toList ++ rest) pending =
      ⟨[], [], pending, .errExit⟩ := by
  have e1 : "Content-Length: abc\r\n".toList =
      "Content-Length: abc\r".toList ++ ['\n'] := by decide
  have hline : readLine ("Content-Length: abc\r\n".toList ++ rest) =
      ("Content-Length: abc\r\n".toList, rest) := by
    rw [e1, List.append_assoc]
    exact readLine_line_append _ rest (by decide)
  rw [readLoop, hline]
  rfl

theorem skip_nonheader_line (decode : List Char → Option JValue)
    (junk rest : List Char) (pending : List Int) (fuel : Nat)
    (hnl : ∀ c ∈ junk, c ≠ '\n')
    (hncl : "Content-Length:".toList.isPrefixOf (pyStrip (junk ++ ['\n'])) = false) :
    readLoop decode (fuel + 1) (junk ++ '\n' :: rest) pending =
      readLoop decode fuel rest pending := by
  have hline : readLine (junk ++ '\n' :: rest) = (junk ++ ['\n'], rest) :=
    readLine_line_append junk rest hnl
  have h0 : (junk ++ ['\n']).isEmpty = false := by
    cases junk <;> rfl
  rw [readLoop, hline]
  simp only [h0, hncl, Bool.false_eq_true, if_false]

/-- C2 counterexample. A malformed frame (non-numeric Content-Length) is
*not* dropped with the loop continuing: `int()` raises, the catch-all
`except` logs and `break`s, so the subsequent well-formed frame — which
the very same decoder serves fine when the malformed frame is absent — is
never read, decoded, or delivered. -/
theorem malformed_frame_not_recovered_cex :
    readLoop (decodeFor respTable) 5
        ("Content-Length: abc\r\n\r\n".toList ++ streamGoodFrame) [7] =
      ⟨[], [], [7], .errExit⟩ ∧
    readLoop (decodeFor respTable) 5 streamGoodFrame [7] =
      ⟨[bodyKnown], [(7, .rok (.jstr "ok"))], [], .eofExit⟩ :=
  ⟨rfl, rfl⟩

/-- C2 amended. A frame whose Content-Length value is non-numeric
terminates the reader loop (`int()` raises `ValueError`, the `except`
handler logs and breaks): whatever well-formed frames follow are not
decoded and no waiter is released, while the same following frame alone
is decoded and delivered normally. -/
theorem malformed_frame_breaks_loop :
    (∀ (decode : List Char → Option JValue) (rest : List Char)
        (pending : List Int) (fuel : Nat),
        readLoop decode (fuel + 1)
            ("Content-Length: abc\r\n".toList ++ rest) pending =
          ⟨[], [], pending, .errExit⟩) ∧
    readLoop (decodeFor respTable) 2 streamGoodFrame [7] =
      ⟨[bodyKnown], [(7, .rok (.jstr "ok"))], [], .eofExit⟩ :=
  ⟨malformed_length_halts, rfl⟩

/-- C5. A Response whose integer id is not a key of `pending_requests` is
discarded: `resolveStep` leaves the mapping unchanged and releases no
waiter, for every such message; and in a concrete run an unknown-id reply
(id 99, pending = `[7]`) is read past without error — the loop goes on to
decode and deliver the next frame (resolving id 7) and ends at end of
input, not with an error. -/
theorem unknown_id_reply_discarded :
    (∀ (pending : List Int) (msg : JValue) (i : Int),
        jGet msg "id" = some (.jnum i) → i ∉ pending →
        resolveStep pending msg = (pending, none)) ∧
    readLoop (decodeFor respTable) 3
        ("Content-Length: 44\r\n\r\n".toList ++ bodyUnknown ++ streamGoodFrame) [7] =
      ⟨[bodyUnknown, bodyKnown], [(7, .rok (.jstr "ok"))], [], .eofExit⟩ := by
  constructor
  · intro pending msg i hid hni
    unfold resolveStep
    rw [hid]
    simp [hni]
  · rfl

/-- Witness for C5: the unknown-id reply (id 99) against the concrete
pending map `[7]` leaves the map unchanged and releases nobody. -/
theorem unknown_id_reply_discarded_witness :
    resolveStep [7] respUnknownId = ([7], none) :=
  unknown_id_reply_discarded.1 [7] respUnknownId 99 rfl (by decide)

/-- C8 counterexample. Header handling is *not* blank-line-terminated
regardless of position: with an unrecognized header line between the
Content-Length line and the blank separator, the loop skips exactly one
line (the unrecognized header, assumed blank) and then reads the
separator's own bytes `"\r\n"` as the body — not the actual 2-byte body
after the blank line — and breaks when decoding fails; the identical frame
without the interposed header is decoded fine. -/
theorem header_between_length_and_blank_cex :
    readLoop (decodeFor respTable) 5
        ("Content-Length: 2\r\nX-Custom: ok\r\n\r\n".toList ++ bodyEmptyObj) [] =
      ⟨[['\r', '\n']], [], [], .errExit⟩ ∧
    readLoop (decodeFor respTable) 5
        ("Content-Length: 2\r\n\r\n".toList ++ bodyEmptyObj) [] =
      ⟨[bodyEmptyObj], [], [], .eofExit⟩ :=
  ⟨rfl, rfl⟩

/-- C8 amended. Header lines that do not begin with `Content-Length:` are
ignored only *before* the Content-Length line (each makes the loop
`continue`); once the Content-Length line is read, the loop does not scan
to the blank line — it skips exactly one following line, assumed to be the
blank separator, and then reads the body bytes.  A frame preceded by an
unrecognized header is served; an unrecognized header *between* the
Content-Length line and the blank line shifts the body read and breaks the
loop. -/
theorem headers_ignored_only_before_length :
    (∀ (decode : List Char → Option JValue) (junk rest : List Char)
        (pending : List Int) (fuel : Nat),
        (∀ c ∈ junk, c ≠ '\n') →
        "Content-Length:".toList.isPrefixOf (pyStrip (junk ++ ['\n'])) = false →
        readLoop decode (fuel + 1) (junk ++ '\n' :: rest) pending =
          readLoop decode fuel rest pending) ∧
    readLoop (decodeFor respTable) 3
        ("X-Custom: ok\r\n".toList ++ "Content-Length: 2\r\n\r\n".toList ++ bodyEmptyObj) [] =
      ⟨[bodyEmptyObj], [], [], .eofExit⟩ ∧
    readLoop (decodeFor respTable) 5
        ("Content-Length: 2\r\nX-Custom: ok\r\n\r\n".toList ++ bodyEmptyObj) [] =
      ⟨[['\r', '\n']], [], [], .errExit⟩ :=
  ⟨fun decode junk rest pending fuel hnl hncl =>
      skip_nonheader_line decode junk rest pending fuel hnl hncl,
   rfl, rfl⟩

/-- Witness for C8 (amended): ignoring the concrete header line
`"X-Custom: ok\r\n"` ahead of the rest of the stream. -/
theorem headers_ignored_only_before_length_witness :
    readLoop (decodeFor respTable) 4
        ("X-Custom: ok\r".toList ++ '\n' :: "Content-Length: 2\r\n\r\n".toList ++ bodyEmptyObj) [5] =
      readLoop (decodeFor respTable) 3
        ("Content-Length: 2\r\n\r\n".toList ++ bodyEmptyObj) [5] :=
  headers_ignored_only_before_length.1 (decodeFor respTable) "X-Custom: ok\r".toList
    ("Content-Length: 2\r\n\r\n".toList ++ bodyEmptyObj) [5] 3
    (by decide) (by decide)
